import Mathlib

/-!
Verification of the MCMC parameter-inference engine of the ML_XSPEC
repository (`mcmc/predict.py`, `mcmc/modules/parameters.py`,
`mcmc/modules/variables.py`, `mcmc/plot_chains.py`).

Numeric model: python/numpy double values are embedded as `F`, an
IEEE-style value that is either NaN, +inf, -inf, or an exact rational.
Transcendental functions (`np.exp`, `np.log`, `np.log10`) are modelled
parametrically: their value on positive finite inputs is an arbitrary
rational-valued function supplied as an argument (every concrete double
is a rational), while their non-finite and non-positive branches follow
IEEE semantics exactly.
-/

/-- IEEE-style scalar: NaN, +infinity, -infinity, or a finite rational. -/
inductive F where
  | nan : F
  | inf : F
  | ninf : F
  | fin : ℚ → F
deriving DecidableEq, Repr

namespace F

/-- IEEE negation. -/
def fneg : F → F
  | nan => nan
  | inf => ninf
  | ninf => inf
  | fin q => fin (-q)

/-- IEEE addition: NaN propagates, inf + (-inf) = NaN. -/
def fadd : F → F → F
  | nan, _ => nan
  | _, nan => nan
  | inf, ninf => nan
  | ninf, inf => nan
  | inf, _ => inf
  | _, inf => inf
  | ninf, _ => ninf
  | _, ninf => ninf
  | fin a, fin b => fin (a + b)

/-- IEEE subtraction. -/
def fsub (a b : F) : F := fadd a (fneg b)

/-- IEEE multiplication: NaN propagates, inf * 0 = NaN. -/
def fmul : F → F → F
  | nan, _ => nan
  | _, nan => nan
  | inf, inf => inf
  | inf, ninf => ninf
  | ninf, inf => ninf
  | ninf, ninf => inf
  | inf, fin q => if q = 0 then nan else if 0 < q then inf else ninf
  | fin q, inf => if q = 0 then nan else if 0 < q then inf else ninf
  | ninf, fin q => if q = 0 then nan else if 0 < q then ninf else inf
  | fin q, ninf => if q = 0 then nan else if 0 < q then ninf else inf
  | fin a, fin b => fin (a * b)

/-- IEEE division: NaN propagates, inf/inf = NaN, x/0 follows numpy
(1/0 = inf, -1/0 = -inf, 0/0 = NaN; there is no signed zero here). -/
def fdiv : F → F → F
  | nan, _ => nan
  | _, nan => nan
  | inf, inf => nan
  | inf, ninf => nan
  | ninf, inf => nan
  | ninf, ninf => nan
  | inf, fin q => if 0 ≤ q then inf else ninf
  | ninf, fin q => if 0 ≤ q then ninf else inf
  | fin _, inf => fin 0
  | fin _, ninf => fin 0
  | fin a, fin b =>
      if b = 0 then (if a = 0 then nan else if 0 < a then inf else ninf)
      else fin (a / b)

/-- Squaring, as numpy `x**2`. -/
def fsq (a : F) : F := fmul a a

/-- `np.exp`, parametric in its value `rexp` on finite inputs
(exp of a finite double is positive finite, barring overflow/underflow,
which no claim here exercises). -/
def fexp (rexp : ℚ → ℚ) : F → F
  | nan => nan
  | inf => inf
  | ninf => fin 0
  | fin q => fin (rexp q)

/-- `np.log`, parametric in its value `rlog` on positive finite inputs;
log of zero is -inf, log of a negative value is NaN. -/
def flog (rlog : ℚ → ℚ) : F → F
  | nan => nan
  | inf => inf
  | ninf => nan
  | fin q => if q < 0 then nan else if q = 0 then ninf else fin (rlog q)

/-- IEEE `<=` as a boolean: any comparison with NaN is false. -/
def fle : F → F → Bool
  | nan, _ => false
  | _, nan => false
  | ninf, _ => true
  | _, ninf => false
  | _, inf => true
  | inf, _ => false
  | fin a, fin b => decide (a ≤ b)

/-- `np.isfinite`. -/
def fIsFinite : F → Bool
  | fin _ => true
  | _ => false

/-- `np.sum` over a vector (left fold starting from 0.0; for the NaN/inf
propagation facts used here this agrees with numpy pairwise summation). -/
def fsum (l : List F) : F := l.foldl fadd (fin 0)

end F

open F

/-!
`mcmc/modules/parameters.py`: the `Parameters` class. The python object
holds 14 scalar attributes plus a constant `ranges` dict; the dict is the
same for every instance, so it is embedded as a standalone function
(parametric in `lg`, the value of `np.log10` on positive rationals,
because the `kTe` lower bound is `np.log10(2)`).
-/

structure Parameters where
  nH : F
  Betor10 : F
  Rin_M : F
  Incl : F
  rel_refl : F
  Fe_abund : F
  log_xi : F
  kTs : F
  alpha : F
  kTe : F
  norm : F
  Tin : F
  norm_disk : F
  f_true : F
deriving DecidableEq, Repr

/-- The default constructor `Parameters()` from `parameters.py`
(`nH=np.log10(1.0)`, `kTe=np.log10(40)`, `norm_disk=np.log10(1)`, …). -/
def defaultParameters (lg : ℚ → ℚ) : Parameters :=
  { nH := F.fin (lg 1)
    Betor10 := F.fin (-2)
    Rin_M := F.fin 10
    Incl := F.fin 30
    rel_refl := F.fin (-1)
    Fe_abund := F.fin 1
    log_xi := F.fin 1
    kTs := F.fin 2
    alpha := F.fin 2
    kTe := F.fin (lg 40)
    norm := F.fin 1
    Tin := F.fin 1
    norm_disk := F.fin (lg 1)
    f_true := F.fin (2/10) }

/-- The parameter attributes of a `Parameters` instance, in the insertion
order of `self.__dict__` (the trailing `ranges` key, which `log_prior`
skips explicitly, is not a parameter and is modelled separately). -/
def paramNames : List String :=
  ["nH", "Betor10", "Rin_M", "Incl", "rel_refl", "Fe_abund", "log_xi",
   "kTs", "alpha", "kTe", "norm", "Tin", "norm_disk", "f_true"]

/-- `getattr(self, param_name)` for the 14 parameter attributes. -/
def getParam (p : Parameters) : String → F
  | "nH" => p.nH
  | "Betor10" => p.Betor10
  | "Rin_M" => p.Rin_M
  | "Incl" => p.Incl
  | "rel_refl" => p.rel_refl
  | "Fe_abund" => p.Fe_abund
  | "log_xi" => p.log_xi
  | "kTs" => p.kTs
  | "alpha" => p.alpha
  | "kTe" => p.kTe
  | "norm" => p.norm
  | "Tin" => p.Tin
  | "norm_disk" => p.norm_disk
  | "f_true" => p.f_true
  | _ => F.nan

/-- The `self.ranges` dict of `parameters.py`: `(min, max)` per name. -/
def ranges (lg : ℚ → ℚ) : String → Option (ℚ × ℚ)
  | "nH" => some (-2, 1)
  | "Betor10" => some (-10, 0)
  | "Rin_M" => some (6, 150)
  | "Incl" => some (0, 90)
  | "rel_refl" => some (-1, 0)
  | "Fe_abund" => some (1/2, 3)
  | "log_xi" => some (1, 4)
  | "kTs" => some (15/100, 2)
  | "alpha" => some (1/10, 3)
  | "kTe" => some (lg 2, 3)
  | "norm" => some (1/10, 1)
  | "Tin" => some (1/10, 2)
  | "norm_disk" => some (-1, 4)
  | "f_true" => some (-2, 1)
  | _ => none

/-- `Parameters.is_param_within_range`: the chained python comparison
`min_val <= value <= max_val` is `(min_val <= value) and (value <= max_val)`
on IEEE scalars; a name missing from `ranges` passes. -/
def is_param_within_range (lg : ℚ → ℚ) (p : Parameters) (name : String) : Bool :=
  match ranges lg name with
  | some (min_val, max_val) =>
      fle (F.fin min_val) (getParam p name) && fle (getParam p name) (F.fin max_val)
  | none => true

/-- `Parameters.to_array`. -/
def to_array (p : Parameters) : List F :=
  [p.nH, p.Betor10, p.Rin_M, p.Incl, p.rel_refl, p.Fe_abund, p.log_xi,
   p.kTs, p.alpha, p.kTe, p.norm, p.Tin, p.norm_disk, p.f_true]

/-- `Parameters.update_from_array`: tuple unpacking of the 14 attributes;
an array of any other length raises `ValueError`. -/
def update_from_array (p : Parameters) (a : List F) : Except String Parameters :=
  match p, a with
  | _, [nH, Betor10, Rin_M, Incl, rel_refl, Fe_abund, log_xi,
        kTs, alpha, kTe, norm, Tin, norm_disk, f_true] =>
      Except.ok ⟨nH, Betor10, Rin_M, Incl, rel_refl, Fe_abund, log_xi,
                 kTs, alpha, kTe, norm, Tin, norm_disk, f_true⟩
  | _, _ => Except.error "ValueError: cannot unpack array into 14 parameters"

/-- `log_prior` from `mcmc/predict.py`: walks the instance attributes in
`__dict__` order, skips `ranges`, and returns `-inf` as soon as one
parameter fails its range check, else `0.0`.  `List.all` is exactly this
short-circuit conjunction. -/
def log_prior (lg : ℚ → ℚ) (p : Parameters) : F :=
  if paramNames.all (is_param_within_range lg p) then F.fin 0 else F.ninf

/-!
`log_likelihood` from `mcmc/predict.py`.  The surrogate `Model` (neural
net prediction, scaler inverse transform, interpolation onto the observed
grid) is opaque here: it is a parameter mapping the model-parameter vector
`theta[:-1]` to the per-bin predicted flux.  `yd`/`yderr` are the observed
flux and its error, per energy bin.  Elementwise numpy arithmetic becomes
`List.map`/`List.zipWith`.
-/

/-- The per-bin array `sigma2 = yderr**2 + model**2 * np.exp(2 * log_f)`. -/
def ll_sigma2 (rexp : ℚ → ℚ) (yderr m : List F) (log_f : F) : List F :=
  List.zipWith fadd (yderr.map fsq)
    ((m.map fsq).map (fun x => fmul x (fexp rexp (fmul (F.fin 2) log_f))))

/-- The per-bin array `(yd - model)**2 / sigma2 + np.log(sigma2)`. -/
def ll_terms (rexp rlog : ℚ → ℚ) (yd yderr m : List F) (log_f : F) : List F :=
  List.zipWith fadd
    (List.zipWith fdiv ((List.zipWith fsub yd m).map fsq)
      (ll_sigma2 rexp yderr m log_f))
    ((ll_sigma2 rexp yderr m log_f).map (flog rlog))

/-- `log_likelihood(theta)`: `model_par = theta[:-1]`, `log_f = theta[-1]`
(an `IndexError` on an empty array), result
`-0.5 * np.sum((yd - model)**2 / sigma2 + np.log(sigma2))`. -/
def log_likelihood (rexp rlog : ℚ → ℚ) (Model : List F → List F)
    (yd yderr theta : List F) : Except String F :=
  match theta.getLast? with
  | none => Except.error "IndexError: index -1 is out of bounds"
  | some log_f =>
      Except.ok (fmul (F.fin (-(1/2)))
        (fsum (ll_terms rexp rlog yd yderr (Model theta.dropLast) log_f)))

/-- `log_probability(theta)` from `mcmc/predict.py`: builds a fresh
`Parameters()`, updates it from `theta` (propagating the `ValueError` on a
malformed length), takes the prior, and either short-circuits to
`(-inf, None)` or returns `(lp + log_likelihood(theta), lp)`. -/
def log_probability (lg rexp rlog : ℚ → ℚ) (Model : List F → List F)
    (yd yderr theta : List F) : Except String (F × Option F) := do
  let p ← update_from_array (defaultParameters lg) theta
  let lp := log_prior lg p
  if fIsFinite lp = false then
    return (F.ninf, none)
  else do
    let ll ← log_likelihood rexp rlog Model yd yderr theta
    return (fadd lp ll, some lp)

/-!
`mcmc/modules/variables.py`: the "true" parameters and `par_original`.
`f_true` is not passed, so it keeps its default `0.2`.
-/

/-- The `Parameters(...)` instance built in `variables.py`
(`norm=1.79977`, `norm_disk=np.log10(5.1879e5)`, `f_true` defaulted). -/
def paramsTrue (lg : ℚ → ℚ) : Parameters :=
  { nH := F.fin (257/1000)
    Betor10 := F.fin (-(1754/1000))
    Rin_M := F.fin (1168/100)
    Incl := F.fin (4296/100)
    rel_refl := F.fin (-(10/100))
    Fe_abund := F.fin (2908/1000)
    log_xi := F.fin (27793/10000)
    kTs := F.fin (5148/10000)
    alpha := F.fin (8595/10000)
    kTe := F.fin (20501/10000)
    norm := F.fin (179977/100000)
    Tin := F.fin (3018/10000)
    norm_disk := F.fin (lg 518790)
    f_true := F.fin (2/10) }

/-- `par_original = params.to_array()` from `variables.py`. -/
def par_original (lg : ℚ → ℚ) : List F := to_array (paramsTrue lg)

/-!
`mcmc/plot_chains.py` diagnostics: `tau = reader.get_autocorr_time(tol=0)`
is a per-dimension array of float estimates (modelled as exact rationals,
the claims being order/truncation facts); then
`burnin = int(2 * np.max(tau))` and `thin = int(0.5 * np.min(tau))`.
-/

/-- `np.max` of an array (raises on an empty one). -/
def npMax : List ℚ → Option ℚ
  | [] => none
  | x :: xs => some (xs.foldl max x)

/-- `np.min` of an array (raises on an empty one). -/
def npMin : List ℚ → Option ℚ
  | [] => none
  | x :: xs => some (xs.foldl min x)

/-- Python `int()` on a float: truncation toward zero. -/
def pyInt (q : ℚ) : ℤ := if 0 ≤ q then ⌊q⌋ else -⌊-q⌋

/-- `burnin = int(2 * np.max(tau))`. -/
def burnin (tau : List ℚ) : Option ℤ := (npMax tau).map (fun m => pyInt (2 * m))

/-- `thin = int(0.5 * np.min(tau))`. -/
def thin (tau : List ℚ) : Option ℤ := (npMin tau).map (fun m => pyInt ((5/10) * m))

/-!
The summary loop at the end of `mcmc/predict.py`:

    samples = sampler.get_chain()          -- shape (steps, walkers, ndim)
    for i in range(ndim):
        mcmc = np.percentile(samples[:, i], [16, 50, 84])

A stored chain is a steps x walkers x ndim nested list of floats
(exact rationals here).  `np.percentile` with the default linear
interpolation sorts the flattened input and interpolates at rank
`q/100 * (n-1)`.
-/

/-- `np.percentile(a, q)` (linear interpolation) on a flattened array. -/
def percentile (l : List ℚ) (q : ℚ) : Option ℚ :=
  match l with
  | [] => none
  | _ :: _ =>
      let s := l.insertionSort (· ≤ ·)
      let pos := q * ((l.length : ℚ) - 1) / 100
      let i0 := (⌊pos⌋).toNat
      let frac := pos - (i0 : ℚ)
      some (s.getD i0 0 + frac * (s.getD (i0 + 1) (s.getD i0 0) - s.getD i0 0))

/-- What the code computes for "dimension" `i`:
`np.percentile(samples[:, i], q)`, i.e. the percentile over the samples of
WALKER `i` pooled across every parameter dimension (`samples[:, i]` indexes
axis 1, the walker axis, of the step x walker x dimension chain). -/
def summary_as_coded (samples : List (List (List ℚ))) (i : ℕ) (q : ℚ) : Option ℚ :=
  percentile ((samples.map (fun step => step.getD i [])).flatten) q

/-- Modelled from the spec: the percentile over the flattened samples of
parameter dimension `i` (`flattened_samples` then `percentiles(dimension,
...)`), for comparison with `summary_as_coded`. -/
def summary_per_dimension (samples : List (List (List ℚ))) (i : ℕ) (q : ℚ) : Option ℚ :=
  percentile (samples.flatten.map (fun pt => pt.getD i 0)) q

/-! ### Helper lemmas -/

/-- Rebuilding a `Parameters` from its own array form recovers it. -/
lemma update_to_array_id (q p : Parameters) :
    update_from_array q (to_array p) = Except.ok p := by
  cases p; rfl

/-- NaN absorbs on the right of IEEE addition. -/
lemma fadd_nan (x : F) : fadd x F.nan = F.nan := by
  cases x <;> rfl

/-- NaN absorbs on the left of IEEE addition. -/
lemma nan_fadd (x : F) : fadd F.nan x = F.nan := by
  cases x <;> rfl

/-- A fold of IEEE addition starting from NaN stays NaN. -/
lemma foldl_fadd_from_nan (l : List F) : l.foldl fadd F.nan = F.nan := by
  induction l with
  | nil => rfl
  | cons y ys ih => rw [List.foldl_cons, nan_fadd]; exact ih

/-- A fold of IEEE addition over a list containing NaN is NaN. -/
lemma foldl_fadd_nan (l : List F) (a : F) (h : F.nan ∈ l) :
    l.foldl fadd a = F.nan := by
  induction l generalizing a with
  | nil => cases h
  | cons x xs ih =>
      rcases List.mem_cons.mp h with hx | hxs
      · subst hx
        rw [List.foldl_cons, fadd_nan]
        exact foldl_fadd_from_nan xs
      · rw [List.foldl_cons]
        exact ih _ hxs

/-! ### C4: array round-trip -/

/-- C4: `update_from_array (to_array p)` restores every one of the 14
fields, and `to_array` emits the fields in exactly the order
`update_from_array` consumes them: on any length-14 array the update
succeeds and `to_array` of the result reproduces the array. -/
theorem roundtrip_to_array_update (p q : Parameters) :
    update_from_array q (to_array p) = Except.ok p ∧
    ∀ a : List F, a.length = 14 →
      ∃ r, update_from_array p a = Except.ok r ∧ to_array r = a := by
  refine ⟨update_to_array_id q p, ?_⟩
  intro a ha
  rcases a with _|⟨x1,_|⟨x2,_|⟨x3,_|⟨x4,_|⟨x5,_|⟨x6,_|⟨x7,_|⟨x8,_|⟨x9,_|⟨x10,_|⟨x11,_|⟨x12,_|⟨x13,_|⟨x14,_|⟨x15,rest⟩⟩⟩⟩⟩⟩⟩⟩⟩⟩⟩⟩⟩⟩⟩
  all_goals first
    | exact ⟨_, rfl, rfl⟩
    | simp at ha

/-- Witness for C4 at a concrete instance and a concrete length-14 array. -/
theorem roundtrip_to_array_update_witness :
    update_from_array (defaultParameters (fun _ => 0))
        (to_array (defaultParameters (fun _ => 0)))
      = Except.ok (defaultParameters (fun _ => 0)) ∧
    ∃ r, update_from_array (defaultParameters (fun _ => 0))
            [F.fin 1, F.fin 2, F.fin 3, F.fin 4, F.fin 5, F.fin 6, F.fin 7,
             F.fin 8, F.fin 9, F.fin 10, F.fin 11, F.fin 12, F.fin 13, F.fin 14]
          = Except.ok r ∧
         to_array r
           = [F.fin 1, F.fin 2, F.fin 3, F.fin 4, F.fin 5, F.fin 6, F.fin 7,
              F.fin 8, F.fin 9, F.fin 10, F.fin 11, F.fin 12, F.fin 13, F.fin 14] :=
  ⟨(roundtrip_to_array_update (defaultParameters (fun _ => 0))
      (defaultParameters (fun _ => 0))).1,
   (roundtrip_to_array_update (defaultParameters (fun _ => 0))
      (defaultParameters (fun _ => 0))).2 _ (by decide)⟩

/-! ### C7: malformed theta length is fatal -/

/-- C7: updating a `Parameters` from an array whose length is not 14
raises a `ValueError`, and `log_probability` (which performs this update
before looking at the prior) propagates that exception instead of
absorbing the malformed vector into a `-inf` result. -/
theorem malformed_theta_raises (p : Parameters) (theta : List F)
    (h : theta.length ≠ 14) :
    (∃ e, update_from_array p theta = Except.error e) ∧
    ∀ lg rexp rlog Model yd yderr,
      ∃ e, log_probability lg rexp rlog Model yd yderr theta = Except.error e := by
  rcases theta with _|⟨x1,_|⟨x2,_|⟨x3,_|⟨x4,_|⟨x5,_|⟨x6,_|⟨x7,_|⟨x8,_|⟨x9,_|⟨x10,_|⟨x11,_|⟨x12,_|⟨x13,_|⟨x14,_|⟨x15,rest⟩⟩⟩⟩⟩⟩⟩⟩⟩⟩⟩⟩⟩⟩⟩
  all_goals first
    | exact absurd rfl h
    | exact ⟨⟨_, rfl⟩, fun lg rexp rlog Model yd yderr => ⟨_, rfl⟩⟩

/-- Witness for C7 on a concrete length-3 array. -/
theorem malformed_theta_raises_witness :
    (∃ e, update_from_array (defaultParameters (fun _ => 0))
        [F.fin 1, F.fin 2, F.fin 3] = Except.error e) ∧
    ∀ lg rexp rlog Model yd yderr,
      ∃ e, log_probability lg rexp rlog Model yd yderr
          [F.fin 1, F.fin 2, F.fin 3] = Except.error e :=
  malformed_theta_raises (defaultParameters (fun _ => 0))
    [F.fin 1, F.fin 2, F.fin 3] (by decide)

/-! ### C1: log_prior is the inclusive-range indicator -/

/-- All 14 parameter attributes hold finite values. -/
def FiniteFields (p : Parameters) : Prop :=
  ∀ name ∈ paramNames, fIsFinite (getParam p name) = true

/-- A parameter lies strictly outside its declared `[min, max]` range. -/
def StrictlyOutside (lg : ℚ → ℚ) (p : Parameters) (name : String) : Prop :=
  ∃ lo hi q, ranges lg name = some (lo, hi) ∧ getParam p name = F.fin q ∧
    (q < lo ∨ hi < q)

lemma fIsFinite_iff (v : F) : fIsFinite v = true ↔ ∃ q, v = F.fin q := by
  cases v <;> simp [fIsFinite]

lemma ranges_some (lg : ℚ → ℚ) (name : String) (h : name ∈ paramNames) :
    ∃ lo hi, ranges lg name = some (lo, hi) := by
  fin_cases h <;> exact ⟨_, _, rfl⟩

lemma strictlyOutside_iff (lg : ℚ → ℚ) (p : Parameters) (name : String)
    (lo hi q : ℚ) (hr : ranges lg name = some (lo, hi))
    (hv : getParam p name = F.fin q) :
    StrictlyOutside lg p name ↔ (q < lo ∨ hi < q) := by
  constructor
  · rintro ⟨lo', hi', q', hr', hv', hout⟩
    rw [hr] at hr'
    rw [hv] at hv'
    obtain ⟨hl, hh⟩ := Prod.mk.injEq .. ▸ Option.some.inj hr'
    obtain hq := F.fin.inj hv'
    subst hl; subst hh; subst hq
    exact hout
  · intro hout
    exact ⟨lo, hi, q, hr, hv, hout⟩

lemma within_false_iff_strictlyOutside (lg : ℚ → ℚ) (p : Parameters)
    (name : String) (hmem : name ∈ paramNames)
    (hf : fIsFinite (getParam p name) = true) :
    is_param_within_range lg p name = false ↔ StrictlyOutside lg p name := by
  obtain ⟨q, hv⟩ := (fIsFinite_iff _).mp hf
  obtain ⟨lo, hi, hr⟩ := ranges_some lg name hmem
  rw [strictlyOutside_iff lg p name lo hi q hr hv]
  simp only [is_param_within_range, hr, hv, fle, Bool.and_eq_false_imp,
    decide_eq_true_eq, decide_eq_false_iff_not, not_le]
  rw [imp_iff_not_or, not_le]

lemma log_prior_eq_ninf_iff (lg : ℚ → ℚ) (p : Parameters) :
    log_prior lg p = F.ninf ↔
      ∃ name ∈ paramNames, is_param_within_range lg p name = false := by
  unfold log_prior
  by_cases h : paramNames.all (is_param_within_range lg p) = true
  · rw [if_pos h]
    simp only [List.all_eq_true] at h
    simp only [show (F.fin 0 = F.ninf) ↔ False by simp, false_iff]
    rintro ⟨name, hmem, hfalse⟩
    rw [h name hmem] at hfalse
    cases hfalse
  · rw [if_neg h]
    simp only [List.all_eq_true, not_forall] at h
    obtain ⟨name, hmem, hfalse⟩ := h
    exact iff_of_true rfl ⟨name, hmem, Bool.eq_false_iff.mpr hfalse⟩

/-- A `Parameters` instance with every field at the lower end of its
declared range. -/
def minBoundParameters (lg : ℚ → ℚ) : Parameters :=
  { nH := F.fin (-2)
    Betor10 := F.fin (-10)
    Rin_M := F.fin 6
    Incl := F.fin 0
    rel_refl := F.fin (-1)
    Fe_abund := F.fin (1/2)
    log_xi := F.fin 1
    kTs := F.fin (15/100)
    alpha := F.fin (1/10)
    kTe := F.fin (lg 2)
    norm := F.fin (1/10)
    Tin := F.fin (1/10)
    norm_disk := F.fin (-1)
    f_true := F.fin (-2) }

/-- A `Parameters` instance with every field at the upper end of its
declared range. -/
def maxBoundParameters : Parameters :=
  { nH := F.fin 1
    Betor10 := F.fin 0
    Rin_M := F.fin 150
    Incl := F.fin 90
    rel_refl := F.fin 0
    Fe_abund := F.fin 3
    log_xi := F.fin 4
    kTs := F.fin 2
    alpha := F.fin 3
    kTe := F.fin 3
    norm := F.fin 1
    Tin := F.fin 2
    norm_disk := F.fin 4
    f_true := F.fin 1 }

/-- C1: on a vector of 14 finite fields, `log_prior` returns `-inf`
exactly when some field is strictly outside its declared inclusive
`[min, max]` range and `0.0` exactly when none is; in particular the two
vectors sitting exactly on every lower (resp. upper) bound get `0.0`
(bounds are inclusive).  The hypothesis `lg 2 ≤ 3` states that the stored
`kTe` range `(np.log10(2), 3)` is non-degenerate, true of the actual
`np.log10`. -/
theorem log_prior_range_spec (lg : ℚ → ℚ) (p : Parameters)
    (hfin : FiniteFields p) (hk : lg 2 ≤ 3) :
    (log_prior lg p = F.ninf ↔ ∃ name ∈ paramNames, StrictlyOutside lg p name) ∧
    (log_prior lg p = F.fin 0 ↔ ∀ name ∈ paramNames, ¬ StrictlyOutside lg p name) ∧
    log_prior lg (minBoundParameters lg) = F.fin 0 ∧
    log_prior lg maxBoundParameters = F.fin 0 := by
  have hiff : ∀ name ∈ paramNames,
      (is_param_within_range lg p name = false ↔ StrictlyOutside lg p name) :=
    fun name hmem =>
      within_false_iff_strictlyOutside lg p name hmem (hfin name hmem)
  have h1 : log_prior lg p = F.ninf ↔
      ∃ name ∈ paramNames, StrictlyOutside lg p name := by
    rw [log_prior_eq_ninf_iff]
    constructor
    · rintro ⟨name, hmem, hfalse⟩
      exact ⟨name, hmem, (hiff name hmem).mp hfalse⟩
    · rintro ⟨name, hmem, hout⟩
      exact ⟨name, hmem, (hiff name hmem).mpr hout⟩
  refine ⟨h1, ?_, ?_, ?_⟩
  · have htwo : log_prior lg p = F.fin 0 ∨ log_prior lg p = F.ninf := by
      unfold log_prior
      by_cases h : paramNames.all (is_param_within_range lg p) = true
      · exact Or.inl (if_pos h)
      · exact Or.inr (if_neg h)
    constructor
    · intro hzero name hmem hout
      have : log_prior lg p = F.ninf := h1.mpr ⟨name, hmem, hout⟩
      rw [hzero] at this
      cases this
    · intro hnone
      rcases htwo with hz | hn
      · exact hz
      · exact absurd (h1.mp hn) (by
          rintro ⟨name, hmem, hout⟩
          exact hnone name hmem hout)
  · unfold log_prior
    rw [if_pos]
    simp only [paramNames, List.all_cons, List.all_nil, Bool.and_eq_true,
      is_param_within_range, ranges, getParam, minBoundParameters, fle]
    norm_num [hk]
  · unfold log_prior
    rw [if_pos]
    simp only [paramNames, List.all_cons, List.all_nil, Bool.and_eq_true,
      is_param_within_range, ranges, getParam, maxBoundParameters, fle]
    norm_num [hk]

/-- Witness for C1 at a concrete `lg` and a concrete all-finite instance. -/
theorem log_prior_range_spec_witness :
    (log_prior (fun _ => 1) (defaultParameters (fun _ => 1)) = F.ninf ↔
      ∃ name ∈ paramNames,
        StrictlyOutside (fun _ => 1) (defaultParameters (fun _ => 1)) name) ∧
    (log_prior (fun _ => 1) (defaultParameters (fun _ => 1)) = F.fin 0 ↔
      ∀ name ∈ paramNames,
        ¬ StrictlyOutside (fun _ => 1) (defaultParameters (fun _ => 1)) name) ∧
    log_prior (fun _ => 1) (minBoundParameters (fun _ => 1)) = F.fin 0 ∧
    log_prior (fun _ => 1) maxBoundParameters = F.fin 0 :=
  log_prior_range_spec (fun _ => 1) (defaultParameters (fun _ => 1))
    (by intro name h; fin_cases h <;> rfl) (by norm_num)

/-! ### C9: the default-constructed vector is inside the prior support -/

/-- C9: every default field value of `Parameters()` lies inside its
declared inclusive range, so `log_prior` of the default instance is
`0.0`.  The hypotheses are the three facts about `np.log10` the defaults
depend on (`log10(1.0) = 0`, monotonicity at `2 ≤ 40`, `log10(40) ≤ 3`),
all true of the actual double-precision `np.log10`. -/
theorem default_parameters_in_prior_support (lg : ℚ → ℚ)
    (h1 : lg 1 = 0) (h2 : lg 2 ≤ lg 40) (h3 : lg 40 ≤ 3) :
    log_prior lg (defaultParameters lg) = F.fin 0 := by
  unfold log_prior
  rw [if_pos]
  simp only [paramNames, List.all_cons, List.all_nil, Bool.and_eq_true,
    is_param_within_range, ranges, getParam, defaultParameters, fle,
    decide_eq_true_eq, h1]
  norm_num [h2, h3]

/-- Witness for C9 at a concrete stand-in for `np.log10`. -/
theorem default_parameters_in_prior_support_witness :
    log_prior (fun q => if q = 40 then 8/5 else 0)
      (defaultParameters (fun q => if q = 40 then 8/5 else 0)) = F.fin 0 :=
  default_parameters_in_prior_support (fun q => if q = 40 then 8/5 else 0)
    (by norm_num) (by norm_num) (by norm_num)

/-! ### C10: the "true" vector `par_original` is outside the prior support -/

/-- C10: the `variables.py` instance stores `norm = 1.79977` while the
declared `norm` range is `[0.1, 1.0]`, so rebuilding a `Parameters` from
`par_original` (as `log_probability` does for the initial walker centre)
and taking `log_prior` gives `-inf`, whatever `np.log10` is. -/
theorem par_original_outside_prior (lg : ℚ → ℚ) :
    update_from_array (defaultParameters lg) (par_original lg)
      = Except.ok (paramsTrue lg) ∧
    (paramsTrue lg).norm = F.fin (179977/100000) ∧
    StrictlyOutside lg (paramsTrue lg) "norm" ∧
    log_prior lg (paramsTrue lg) = F.ninf := by
  refine ⟨update_to_array_id _ _, rfl, ?_, ?_⟩
  · exact ⟨1/10, 1, 179977/100000, rfl, rfl, Or.inr (by norm_num)⟩
  · rw [log_prior_eq_ninf_iff]
    refine ⟨"norm", by simp [paramNames], ?_⟩
    simp only [is_param_within_range, ranges, getParam, paramsTrue, fle]
    norm_num

/-! ### C2: log_probability computes the prior first and short-circuits -/

/-- C2: once `theta` unpacks into a `Parameters` instance `p`,
`log_probability` inspects `log_prior` first: if it is not finite the
result is `(-inf, None)` for EVERY surrogate model, transcendental table
and data set (so the likelihood is never consulted); if it is finite the
result is `(lp + log_likelihood(theta), lp)`. -/
theorem log_probability_short_circuit (lg : ℚ → ℚ) (theta : List F)
    (p : Parameters)
    (hp : update_from_array (defaultParameters lg) theta = Except.ok p) :
    (fIsFinite (log_prior lg p) = false →
      ∀ rexp rlog Model yd yderr,
        log_probability lg rexp rlog Model yd yderr theta
          = Except.ok (F.ninf, none)) ∧
    (fIsFinite (log_prior lg p) = true →
      ∀ rexp rlog Model yd yderr,
        ∃ ll, log_likelihood rexp rlog Model yd yderr theta = Except.ok ll ∧
          log_probability lg rexp rlog Model yd yderr theta
            = Except.ok (fadd (log_prior lg p) ll, some (log_prior lg p))) := by
  have hne : theta ≠ [] := by
    intro h
    subst h
    simp [update_from_array] at hp
  obtain ⟨lf, hlf⟩ : ∃ lf, theta.getLast? = some lf :=
    Option.isSome_iff_exists.mp (List.getLast?_isSome.mpr hne)
  constructor
  · intro hfin rexp rlog Model yd yderr
    simp [log_probability, hp, hfin, Except.instMonad, Except.bind, Except.map,
      Bind.bind, Functor.map, pure, Except.pure]
  · intro hfin rexp rlog Model yd yderr
    refine ⟨fmul (F.fin (-(1/2)))
      (fsum (ll_terms rexp rlog yd yderr (Model theta.dropLast) lf)), ?_, ?_⟩
    · simp [log_likelihood, hlf]
    · simp [log_probability, hp, hfin, log_likelihood, hlf, Except.instMonad,
        Except.bind, Except.map, Bind.bind, Functor.map, pure, Except.pure]

/-- Witness for C2: a concrete all-zero `theta` (whose `Rin_M = 0` is
below its range minimum 6), with the likelihood instantiated at trivial
surrogate data, short-circuits to `(-inf, None)`. -/
theorem log_probability_short_circuit_witness :
    log_probability (fun _ => 0) (fun _ => 0) (fun _ => 0) (fun _ => [])
      [] [] (List.replicate 14 (F.fin 0)) = Except.ok (F.ninf, none) :=
  (log_probability_short_circuit (fun _ => 0) (List.replicate 14 (F.fin 0))
    ⟨F.fin 0, F.fin 0, F.fin 0, F.fin 0, F.fin 0, F.fin 0, F.fin 0,
     F.fin 0, F.fin 0, F.fin 0, F.fin 0, F.fin 0, F.fin 0, F.fin 0⟩
    (by rfl)).1 (by decide) (fun _ => 0) (fun _ => 0) (fun _ => []) [] []

/-! ### C3: the likelihood formula -/

lemma ll_terms_length (rexp rlog : ℚ → ℚ) (yd yderr m : List F) (lf : F)
    (n : ℕ) (hy : yd.length = n) (he : yderr.length = n) (hm : m.length = n) :
    (ll_terms rexp rlog yd yderr m lf).length = n := by
  simp [ll_terms, ll_sigma2, hy, he, hm]

lemma ll_terms_getD (rexp rlog : ℚ → ℚ) (yd yderr m : List F) (lf : F)
    (i : ℕ) (hy : i < yd.length) (he : i < yderr.length) (hm : i < m.length) :
    (ll_terms rexp rlog yd yderr m lf).getD i F.nan =
      fadd
        (fdiv (fsq (fsub (yd.getD i F.nan) (m.getD i F.nan)))
          (fadd (fsq (yderr.getD i F.nan))
            (fmul (fsq (m.getD i F.nan)) (fexp rexp (fmul (F.fin 2) lf)))))
        (flog rlog (fadd (fsq (yderr.getD i F.nan))
          (fmul (fsq (m.getD i F.nan)) (fexp rexp (fmul (F.fin 2) lf))))) := by
  induction i generalizing yd yderr m with
  | zero =>
      cases yd with
      | nil => simp at hy
      | cons y yt =>
        cases yderr with
        | nil => simp at he
        | cons e et =>
          cases m with
          | nil => simp at hm
          | cons a mt => simp [ll_terms, ll_sigma2]
  | succ i ih =>
      cases yd with
      | nil => simp at hy
      | cons y yt =>
        cases yderr with
        | nil => simp at he
        | cons e et =>
          cases m with
          | nil => simp at hm
          | cons a mt =>
              simp only [ll_terms, ll_sigma2, List.map_cons,
                List.zipWith_cons_cons, List.getD_cons_succ]
              exact ih yt et mt (by simpa using hy) (by simpa using he)
                (by simpa using hm)

/-- C3: `log_likelihood` splits `theta` into model parameters
`theta[:-1]` (fed to the surrogate) and the nuisance term
`log_f = theta[-1]`, and returns
`-0.5 * sum((yd - model)^2 / sigma2 + log(sigma2))`, where bin `i` of the
summed array uses `sigma2 = yderr_i^2 + model_i^2 * exp(2*log_f)`. -/
theorem log_likelihood_formula (rexp rlog : ℚ → ℚ) (Model : List F → List F)
    (yd yderr theta : List F) (n : ℕ) (h : theta ≠ [])
    (hy : yd.length = n) (he : yderr.length = n)
    (hm : (Model theta.dropLast).length = n) :
    log_likelihood rexp rlog Model yd yderr theta
      = Except.ok (fmul (F.fin (-(1/2)))
          (fsum (ll_terms rexp rlog yd yderr (Model theta.dropLast)
            (theta.getLast h)))) ∧
    (ll_terms rexp rlog yd yderr (Model theta.dropLast)
      (theta.getLast h)).length = n ∧
    ∀ i, i < n →
      (ll_terms rexp rlog yd yderr (Model theta.dropLast)
          (theta.getLast h)).getD i F.nan =
        fadd
          (fdiv (fsq (fsub (yd.getD i F.nan)
              ((Model theta.dropLast).getD i F.nan)))
            (fadd (fsq (yderr.getD i F.nan))
              (fmul (fsq ((Model theta.dropLast).getD i F.nan))
                (fexp rexp (fmul (F.fin 2) (theta.getLast h))))))
          (flog rlog (fadd (fsq (yderr.getD i F.nan))
            (fmul (fsq ((Model theta.dropLast).getD i F.nan))
              (fexp rexp (fmul (F.fin 2) (theta.getLast h)))))) := by
  have hlf : theta.getLast? = some (theta.getLast h) :=
    List.getLast?_eq_getLast theta h
  refine ⟨by simp [log_likelihood, hlf], ll_terms_length _ _ _ _ _ _ n hy he hm,
    fun i hi => ll_terms_getD _ _ _ _ _ _ i (hy ▸ hi) (he ▸ hi) (hm ▸ hi)⟩

/-- Witness for C3 on a one-bin data set and a two-entry `theta`. -/
theorem log_likelihood_formula_witness :
    log_likelihood (fun _ => 1) (fun _ => 5) (fun _ => [F.fin 2])
        [F.fin 3] [F.fin 1] [F.fin 9, F.fin 0]
      = Except.ok (fmul (F.fin (-(1/2)))
          (fsum (ll_terms (fun _ => 1) (fun _ => 5) [F.fin 3] [F.fin 1]
            ((fun (_ : List F) => [F.fin 2]) [F.fin 9, F.fin 0].dropLast)
            ([F.fin 9, F.fin 0].getLast (by simp))))) ∧
    (ll_terms (fun _ => 1) (fun _ => 5) [F.fin 3] [F.fin 1]
      ((fun (_ : List F) => [F.fin 2]) [F.fin 9, F.fin 0].dropLast)
      ([F.fin 9, F.fin 0].getLast (by simp))).length = 1 ∧
    ∀ i, i < 1 →
      (ll_terms (fun _ => 1) (fun _ => 5) [F.fin 3] [F.fin 1]
          ((fun (_ : List F) => [F.fin 2]) [F.fin 9, F.fin 0].dropLast)
          ([F.fin 9, F.fin 0].getLast (by simp))).getD i F.nan =
        fadd
          (fdiv (fsq (fsub ([F.fin 3].getD i F.nan)
              (((fun (_ : List F) => [F.fin 2]) [F.fin 9, F.fin 0].dropLast).getD i F.nan)))
            (fadd (fsq ([F.fin 1].getD i F.nan))
              (fmul (fsq (((fun (_ : List F) => [F.fin 2]) [F.fin 9, F.fin 0].dropLast).getD i F.nan))
                (fexp (fun _ => 1) (fmul (F.fin 2) ([F.fin 9, F.fin 0].getLast (by simp)))))))
          (flog (fun _ => 5) (fadd (fsq ([F.fin 1].getD i F.nan))
            (fmul (fsq (((fun (_ : List F) => [F.fin 2]) [F.fin 9, F.fin 0].dropLast).getD i F.nan))
              (fexp (fun _ => 1) (fmul (F.fin 2) ([F.fin 9, F.fin 0].getLast (by simp))))))) :=
  log_likelihood_formula (fun _ => 1) (fun _ => 5) (fun _ => [F.fin 2])
    [F.fin 3] [F.fin 1] [F.fin 9, F.fin 0] 1 (by simp) rfl rfl rfl

/-! ### C5: log_likelihood is NOT finite-safe — NaN propagates out -/

lemma fmul_nan (x : F) : fmul x F.nan = F.nan := by
  cases x <;> rfl

/-- Counterexample to C5 as stated: with one bin where the observed error
is 0 and the surrogate flux is 0 (so `sigma2 = 0` while the residual is
1), the per-bin term is `1/0 + log(0) = inf + (-inf) = NaN`, and
`log_likelihood` returns NaN — not `-inf` ("exp" is exact here:
`theta[-1] = 0`, so `np.exp(2*log_f) = 1`). -/
theorem log_likelihood_not_finite_safe_cex :
    log_likelihood (fun _ => 1) (fun _ => 0) (fun _ => [F.fin 0])
      [F.fin 1] [F.fin 0] [F.fin 0, F.fin 0] = Except.ok F.nan ∧
    F.nan ≠ F.ninf := by
  have h0 : ll_terms (fun _ => 1) (fun _ => 0) [F.fin 1] [F.fin 0] [F.fin 0]
      (F.fin 0) = [F.nan] := by
    norm_num [ll_terms, ll_sigma2, fsq, fmul, fexp, fadd, fsub, fneg, fdiv,
      flog]
  refine ⟨?_, by decide⟩
  have hl : ([F.fin 0, F.fin 0] : List F).getLast? = some (F.fin 0) := rfl
  simp [log_likelihood, hl, h0, fsum, fadd_nan, fmul_nan, nan_fadd]

/-- C5 amended: `log_likelihood` applies no finiteness guard at all — a
NaN per-bin term (e.g. from a zero `sigma2` with a nonzero residual)
propagates through the sum and the `-0.5 *` scaling, so the function
returns NaN rather than `-infinity`. -/
theorem log_likelihood_nan_propagates (rexp rlog : ℚ → ℚ)
    (Model : List F → List F) (yd yderr theta : List F) (h : theta ≠ [])
    (hmem : F.nan ∈ ll_terms rexp rlog yd yderr (Model theta.dropLast)
      (theta.getLast h)) :
    log_likelihood rexp rlog Model yd yderr theta = Except.ok F.nan := by
  have hlf : theta.getLast? = some (theta.getLast h) :=
    List.getLast?_eq_getLast theta h
  have hsum : fsum (ll_terms rexp rlog yd yderr (Model theta.dropLast)
      (theta.getLast h)) = F.nan :=
    foldl_fadd_nan _ _ hmem
  simp [log_likelihood, hlf, hsum, fmul_nan]

/-- Witness for the amended C5 at the concrete zero-`sigma2` input. -/
theorem log_likelihood_nan_propagates_witness :
    log_likelihood (fun _ => 2) (fun _ => 3) (fun _ => [F.fin 0])
      [F.fin 1] [F.fin 0] [F.fin 7, F.fin 0] = Except.ok F.nan :=
  log_likelihood_nan_propagates (fun _ => 2) (fun _ => 3) (fun _ => [F.fin 0])
    [F.fin 1] [F.fin 0] [F.fin 7, F.fin 0] (by simp)
    (by norm_num [ll_terms, ll_sigma2, fsq, fmul, fexp, fadd, fsub, fneg,
      fdiv, flog, List.getLast])

/-! ### C6: burn-in and thinning stride -/

/-- Counterexample to C6 as stated: for `tau = [1.0]` the code computes
`thin = int(0.5 * 1.0) = 0` — there is no flooring at 1, so the stride IS
less than 1. -/
theorem thin_not_floored_cex : thin [1] = some 0 ∧ ¬ (1 ≤ (0 : ℤ)) := by
  refine ⟨?_, by decide⟩
  have h : pyInt ((5 : ℚ)/10) = 0 := by
    unfold pyInt
    rw [if_pos (by norm_num)]
    rw [Int.floor_eq_zero_iff]
    constructor <;> norm_num
  simp [thin, npMin, h]

/-- C6 amended: the diagnostics compute `burnin = int(2 * max(tau))` and
`thin = int(0.5 * min(tau))`, truncated toward zero and NOT floored at 1:
whenever `0 ≤ min(tau) < 2` the stride is 0. -/
theorem burnin_thin_truncation (tau : List ℚ) (M m : ℚ)
    (hM : npMax tau = some M) (hm : npMin tau = some m) :
    burnin tau = some (pyInt (2 * M)) ∧
    thin tau = some (pyInt ((5/10) * m)) ∧
    (0 ≤ m → m < 2 → thin tau = some 0) := by
  refine ⟨by simp [burnin, hM], by simp [thin, hm], ?_⟩
  intro h0 h2
  have hz : pyInt ((5/10) * m) = 0 := by
    unfold pyInt
    rw [if_pos (by nlinarith)]
    rw [Int.floor_eq_zero_iff]
    constructor
    · nlinarith
    · show (5/10 : ℚ) * m < 1
      nlinarith
  simp [thin, hm, hz]

/-- Witness for the amended C6 at `tau = [1.0]`. -/
theorem burnin_thin_truncation_witness :
    burnin [1] = some (pyInt (2 * 1)) ∧
    thin [1] = some (pyInt ((5/10) * 1)) ∧
    ((0 : ℚ) ≤ 1 → (1 : ℚ) < 2 → thin [1] = some 0) :=
  burnin_thin_truncation [1] 1 1 rfl rfl

/-! ### C8: the summary loop indexes the walker axis, not the dimension -/

/-- Evaluation at a 1-step, 2-walker, 2-dimension chain: the code's
`np.percentile(samples[:, 0], 50)` pools walker 0's two PARAMETER values
`[1, 100]` (median 50.5), while the per-dimension median of dimension 0
over the walkers `[1, 2]` is 1.5 — the loop is reading the walker axis. -/
theorem summary_axis_mismatch :
    summary_as_coded [[[1, 100], [2, 200]]] 0 50 = some (101/2) ∧
    summary_per_dimension [[[1, 100], [2, 200]]] 0 50 = some (3/2) ∧
    ((101 : ℚ)/2) ≠ (3/2 : ℚ) := by
  have hsort : List.insertionSort (· ≤ ·) [(1 : ℚ), 100] = [1, 100] := by
    norm_num [List.insertionSort, List.orderedInsert]
  have hsort2 : List.insertionSort (· ≤ ·) [(1 : ℚ), 2] = [1, 2] := by
    norm_num [List.insertionSort, List.orderedInsert]
  have hfloor : (⌊(50 : ℚ) * (2 - 1) / 100⌋ : ℤ) = 0 := by
    rw [Int.floor_eq_zero_iff]
    constructor <;> norm_num
  refine ⟨?_, ?_, by norm_num⟩
  · show percentile [1, 100] 50 = some (101/2)
    simp only [percentile, hsort, List.length_cons, List.length_nil]
    norm_num [hfloor]
  · show percentile [1, 2] 50 = some (3/2)
    simp only [percentile, hsort2, List.length_cons, List.length_nil]
    norm_num [hfloor]
